import Mathlib

/-!
Shallow embedding of the submission controller in `src/pages/index.tsx` of
`llm-short-generator-frontend`.  The page keeps three pieces of React state
(`videoUrl`, `isProcessing`, `executions`) and a single operation,
`triggerWorkflow`, which validates the input, creates an execution record,
performs one HTTP POST and finally marks that record as succeeded or failed.

Modelling conventions: JavaScript strings are Lean `String`s, `Date.now()`
is a natural number of milliseconds, absent / `null` / `undefined` values
are `Option.none`, and the outcome of the awaited `axios.post` (resolve vs
reject) is an explicit `NetOutcome` argument, so that the `try`/`catch`
split of the source becomes a `match`.  Emitted toasts and outbound HTTP
requests are collected as explicit lists so that "no network call is made"
and "a notification is shown" are checkable statements.
-/

/-- Status of an execution record: the union
`'running' | 'success' | 'error'` of `interface Execution`. -/
inductive ExecStatus where
  | running
  | success
  | error
  deriving DecidableEq, Repr

/-- Response body of a resolved `axios.post`.  The page inspects exactly one
field, `response.data?.clips_generated` (a number that may be absent or
`null`, modelled `Option Nat`); the rest of the JSON body is opaque to the
page and kept as an uninterpreted `payload` string. -/
structure ResponseData where
  clips_generated : Option Nat
  payload : String
  deriving DecidableEq, Repr

/-- Fields of the caught axios `error` object that `triggerWorkflow` reads:
`error.code`, `error.message`, `error.response?.status` and
`error.response?.data?.message`.  `none` models an absent field; for
instance `error.response` being `undefined` makes `respStatus = none`. -/
structure AxiosError where
  code : Option String
  message : Option String
  respStatus : Option Nat
  respDataMessage : Option String
  deriving DecidableEq, Repr

/-- Execution record, `interface Execution` of the source: `id : string`,
`status`, `startedAt : string` (an ISO timestamp, opaque here) and the
optional `result?: any` payload. -/
structure Execution where
  id : String
  status : ExecStatus
  startedAt : String
  result : Option ResponseData
  deriving DecidableEq, Repr

/-- Component state of the page: `videoUrl`, `isProcessing` and the
`executions` list (newest first), the three `useState` hooks. -/
structure PageState where
  videoUrl : String
  isProcessing : Bool
  executions : List Execution
  deriving DecidableEq, Repr

/-- Environment configuration read by the page:
`process.env.NEXT_PUBLIC_N8N_WEBHOOK_URL` and
`process.env.NEXT_PUBLIC_N8N_BASE_URL`, each possibly unset. -/
structure Env where
  N8N_WEBHOOK_URL : Option String
  N8N_BASE_URL : Option String
  deriving DecidableEq, Repr

/-- JSON body of the trigger request: `{ videoUrl: videoUrl.trim() }`. -/
structure RequestBody where
  videoUrl : String
  deriving DecidableEq, Repr

/-- One outbound HTTP POST issued by the page. -/
structure Request where
  url : String
  body : RequestBody
  deriving DecidableEq, Repr

/-- Result of the awaited `axios.post`: either it resolves with a response
body or it rejects with an error object (the `catch` branch). -/
inductive NetOutcome where
  | resolved (data : ResponseData)
  | rejectedWith (e : AxiosError)
  deriving DecidableEq, Repr

/-- JavaScript `||` on an optional string configuration value: an unset or
empty-string environment variable is falsy and selects the fallback. -/
def orDefault (v : Option String) (d : String) : String :=
  match v with
  | none => d
  | some s => if s = "" then d else s

/-- The `webhookUrl` constant of the page:
`NEXT_PUBLIC_N8N_WEBHOOK_URL || ((NEXT_PUBLIC_N8N_BASE_URL ||
'https://llm-short-generator-backend.onrender.com') +
'/webhook/ai-video-repurposing')`. -/
def webhookUrl (env : Env) : String :=
  orDefault env.N8N_WEBHOOK_URL
    ((orDefault env.N8N_BASE_URL "https://llm-short-generator-backend.onrender.com") ++
      "/webhook/ai-video-repurposing")

/-- Characters removed by JavaScript `String.prototype.trim`: ASCII
whitespace, NBSP, BOM and the Unicode space separators. -/
def isJsWhitespace (c : Char) : Bool :=
  c = ' ' || c = '\t' || c = '\n' || c = '\r' || c = '\x0b' || c = '\x0c' ||
  c = ' ' || c = '﻿' || c = ' ' || c = ' ' || c = ' ' ||
  c = ' ' || c = ' ' || c = ' ' || c = ' ' || c = ' ' ||
  c = ' ' || c = ' ' || c = ' ' || c = ' ' || c = ' ' ||
  c = ' ' || c = ' ' || c = ' ' || c = '　'

/-- JavaScript `videoUrl.trim()`: strip leading and trailing whitespace. -/
def jsTrim (s : String) : String :=
  String.mk (((s.data.dropWhile isJsWhitespace).reverse.dropWhile isJsWhitespace).reverse)

/-- Character class `[a-zA-Z0-9_-]` of the YouTube-id part of the regex. -/
def idChar (c : Char) : Bool :=
  c.isAlpha || c.isDigit || c = '_' || c = '-'

/-- Literal `https://` of the regex alternative `(https?:\/\/)?`. -/
def schemeHttps : List Char := "https://".data

/-- Literal `http://` of the regex alternative `(https?:\/\/)?`. -/
def schemeHttp : List Char := "http://".data

/-- Literal `www.` of the optional regex group `(www\.)?`. -/
def wwwDot : List Char := "www.".data

/-- Literal `youtube.com/watch?v=` of the regex host alternative. -/
def hostLong : List Char := "youtube.com/watch?v=".data

/-- Literal `youtu.be/` of the regex host alternative. -/
def hostShort : List Char := "youtu.be/".data

/-- Final stage of the regex test: `[a-zA-Z0-9_-]{11}` with no `$` anchor,
so the match succeeds exactly when at least 11 characters remain and the
first 11 of them are in the id character class (anything may follow). -/
def vidChk (l : List Char) : Bool :=
  decide (11 ≤ l.length) && (l.take 11).all idChar

/-- Host stage of the regex test: `(youtube.com\/watch\?v=|youtu\.be\/)`
followed by the id stage. -/
def hostChk (l : List Char) : Bool :=
  if hostLong.isPrefixOf l then vidChk (l.drop hostLong.length)
  else if hostShort.isPrefixOf l then vidChk (l.drop hostShort.length)
  else false

/-- Optional `www.` stage of the regex test.  Consuming a leading `www.`
greedily is equivalent to the regex's backtracking: if `www.` is a prefix
but the rest fails, the non-consuming alternative also fails since neither
host literal starts with `w`. -/
def wwwChk (l : List Char) : Bool :=
  if wwwDot.isPrefixOf l then hostChk (l.drop wwwDot.length)
  else hostChk l

/-- Optional scheme stage of the regex test, `(https?:\/\/)?`.  Greedy
consumption is again equivalent to backtracking: neither `www.` nor a host
literal starts with `h`, and `https://` is never a prefix of a string that
starts with `http://`. -/
def schemeChk (l : List Char) : Bool :=
  if schemeHttps.isPrefixOf l then wwwChk (l.drop schemeHttps.length)
  else if schemeHttp.isPrefixOf l then wwwChk (l.drop schemeHttp.length)
  else wwwChk l

/-- The test
`/^(https?:\/\/)?(www\.)?(youtube\.com\/watch\?v=|youtu\.be\/)[a-zA-Z0-9_-]{11}/.test(s)`
performed by `triggerWorkflow` on the trimmed input (anchored on the left
only). -/
def matchesYoutube (s : String) : Bool :=
  schemeChk s.data

/-- New execution record built at submission time:
`{ id: Date.now().toString(), status: 'running', startedAt: new Date().toISOString() }`.
`Date.now().toString()` is the decimal rendering of the millisecond clock,
`Nat.repr`; the ISO timestamp string is an opaque second clock reading. -/
def newExecution (nowMs : Nat) (nowIso : String) : Execution :=
  { id := Nat.repr nowMs, status := .running, startedAt := nowIso, result := none }

/-- Accepted-submission prefix of `triggerWorkflow` (source lines 46-66):
set `isProcessing`, prepend the fresh `running` record, and build the one
outbound POST to `webhookUrl` with body `{ videoUrl: videoUrl.trim() }`. -/
def acceptSubmit (env : Env) (p : PageState) (nowMs : Nat) (nowIso : String) :
    PageState × Request :=
  ({ p with isProcessing := true, executions := newExecution nowMs nowIso :: p.executions },
   { url := webhookUrl env, body := { videoUrl := jsTrim p.videoUrl } })

/-- The `setExecutions` updater of the success branch: every record whose
`id` equals the submission's id becomes `status: 'success'` with the
response body attached as `result`; all others are returned unchanged. -/
def successUpdate (id : String) (data : ResponseData) (l : List Execution) : List Execution :=
  l.map fun ex => if ex.id = id then { ex with status := .success, result := some data } else ex

/-- The `setExecutions` updater of the catch branch: every record whose
`id` equals the submission's id becomes `status: 'error'`; all others are
returned unchanged. -/
def errorUpdate (id : String) (l : List Execution) : List Execution :=
  l.map fun ex => if ex.id = id then { ex with status := .error } else ex

/-- Substring containment on character lists, modelling JavaScript
`String.prototype.includes`. -/
def hasSub (sub : List Char) : List Char → Bool
  | [] => sub.isEmpty
  | c :: rest => sub.isPrefixOf (c :: rest) || hasSub sub rest

/-- JavaScript `error.message?.includes('Network Error')`: an absent
message is falsy, otherwise substring containment. -/
def msgHasNetworkError (msg : Option String) : Bool :=
  match msg with
  | none => false
  | some m => hasSub "Network Error".data m.data

/-- Error classification of the catch branch (source lines 95-105): timeout
(`error.code === 'ECONNABORTED'`), endpoint not found (status 404), network
unreachable (status 0 or a message containing `Network Error`), a truthy
server-reported `error.response.data.message`, else the generic fallback
`'Failed to process video'`. -/
def getErrorMessage (e : AxiosError) : String :=
  if e.code = some "ECONNABORTED" then
    "Processing timed out. Large videos may take longer to process."
  else if e.respStatus = some 404 then
    "Workflow endpoint not found. Please check backend deployment."
  else if e.respStatus = some 0 || msgHasNetworkError e.message then
    "Cannot connect to backend. Please check if the service is running."
  else
    match e.respDataMessage with
    | some m => if m = "" then "Failed to process video" else m
    | none => "Failed to process video"

/-- Success toast text:
`Video processing completed! Generated ${response.data?.clips_generated || 'multiple'} clips.`
A `clips_generated` of `0`, `null` or absent is falsy and falls back to the
word `multiple`; a nonzero count is rendered in decimal. -/
def successToast (data : ResponseData) : String :=
  "Video processing completed! Generated " ++
    (match data.clips_generated with
     | some n => if n = 0 then "multiple" else Nat.repr n
     | none => "multiple") ++
    " clips."

/-- Completion continuation shared by the `try` success branch and the
`catch` branch, including the `finally` reset of `isProcessing`.  Success
additionally clears the input field (`setVideoUrl('')`); the catch branch
leaves `videoUrl` untouched. -/
def applyComplete (id : String) (net : NetOutcome) (p : PageState) : PageState :=
  match net with
  | .resolved data =>
      { p with executions := successUpdate id data p.executions,
               videoUrl := "", isProcessing := false }
  | .rejectedWith _ =>
      { p with executions := errorUpdate id p.executions, isProcessing := false }

/-- Outcome of one full call of `triggerWorkflow`: the final component
state, the toasts emitted in order, and the outbound requests issued. -/
structure RunResult where
  state : PageState
  toasts : List String
  requests : List Request
  deriving DecidableEq, Repr

/-- One sequential run of `triggerWorkflow` with a given clock reading and
network outcome.  The two validation guards reject with an error toast and
no further effect; otherwise the record is created and prepended, the one
POST is issued, and the record is completed according to `net`. -/
def triggerWorkflow (env : Env) (p : PageState) (nowMs : Nat) (nowIso : String)
    (net : NetOutcome) : RunResult :=
  if jsTrim p.videoUrl = "" then
    { state := p, toasts := ["Please enter a valid YouTube URL"], requests := [] }
  else if ¬ matchesYoutube (jsTrim p.videoUrl) then
    { state := p, toasts := ["Please enter a valid YouTube URL"], requests := [] }
  else
    let (p1, req) := acceptSubmit env p nowMs nowIso
    let id := Nat.repr nowMs
    match net with
    | .resolved data =>
        { state := applyComplete id (.resolved data) p1,
          toasts := ["Starting video processing...", successToast data],
          requests := [req] }
    | .rejectedWith e =>
        { state := applyComplete id (.rejectedWith e) p1,
          toasts := ["Starting video processing...", getErrorMessage e],
          requests := [req] }

/-- System state for interleaved runs: the component state together with
the ids of submissions whose awaited POST has not yet settled.  Each
accepted submission contributes exactly one pending completion, which is
how the single-settlement of a JavaScript promise enters the model. -/
structure SysState where
  page : PageState
  inFlight : List String
  deriving DecidableEq, Repr

/-- Events of an interleaved execution: the user edits the input field
(the controlled `onChange` handler), the user fires `triggerWorkflow` at a
given clock reading, or the awaited POST of a pending submission settles. -/
inductive Event where
  | setInput (v : String)
  | submit (nowMs : Nat) (nowIso : String)
  | complete (id : String) (net : NetOutcome)
  deriving DecidableEq, Repr

/-- Small-step transition of the interleaved model.  A `submit` runs the
synchronous prefix of `triggerWorkflow` (validation, record creation) and
registers the pending completion; a `complete` runs the continuation after
the `await` for one pending submission.  Completing an id that is not
pending is not a step of the system (`none`). -/
def stepE (env : Env) (s : SysState) : Event → Option SysState
  | .setInput v => some { s with page := { s.page with videoUrl := v } }
  | .submit nowMs nowIso =>
      if jsTrim s.page.videoUrl = "" then some s
      else if ¬ matchesYoutube (jsTrim s.page.videoUrl) then some s
      else
        some { page := (acceptSubmit env s.page nowMs nowIso).1,
               inFlight := Nat.repr nowMs :: s.inFlight }
  | .complete id net =>
      if id ∈ s.inFlight then
        some { page := applyComplete id net s.page, inFlight := s.inFlight.erase id }
      else none

/-- Run a list of events from a state; `none` if some event is not a step. -/
def runE (env : Env) : SysState → List Event → Option SysState
  | s, [] => some s
  | s, e :: es =>
      match stepE env s e with
      | some s' => runE env s' es
      | none => none

/-- Initial state of the page: empty input, not processing, no records. -/
def initState : SysState :=
  { page := { videoUrl := "", isProcessing := false, executions := [] }, inFlight := [] }

/-- Clock readings of the `submit` events of a trace, in order. -/
def submitTimes : List Event → List Nat
  | [] => []
  | .submit nowMs _ :: es => nowMs :: submitTimes es
  | _ :: es => submitTimes es

/-- Shape required by the validation regex, stated in the words of the
spec: an optional scheme, an optional `www.`, one of the two host
literals, an 11-character video identifier over `[a-zA-Z0-9_-]`, and an
arbitrary tail (the regex has no right anchor). -/
def YoutubeShape (s : String) : Prop :=
  ∃ scheme www host vid rest : List Char,
    s.data = scheme ++ (www ++ (host ++ (vid ++ rest))) ∧
    (scheme = [] ∨ scheme = schemeHttp ∨ scheme = schemeHttps) ∧
    (www = [] ∨ www = wwwDot) ∧
    (host = hostLong ∨ host = hostShort) ∧
    vid.length = 11 ∧ vid.all idChar = true

/-- Invariant of well-formed system states: distinct record ids, no
duplicated pending completion, and every pending completion has a matching
record that is still `running`. -/
def SysInv (s : SysState) : Prop :=
  s.page.executions.Pairwise (fun a b => a.id ≠ b.id) ∧
  s.inFlight.Nodup ∧
  ∀ i ∈ s.inFlight, ∃ ex ∈ s.page.executions, ex.id = i ∧ ex.status = .running

/-- Every record id is the decimal rendering of one of the clock readings
in `ts`. -/
def IdsFrom (s : SysState) (ts : List Nat) : Prop :=
  ∀ ex ∈ s.page.executions, ∃ n ∈ ts, ex.id = Nat.repr n

/-! Injectivity of the decimal id rendering `Nat.repr`, needed because the
page keys record updates by the string `Date.now().toString()`. -/

theorem digitChar_inj_lt : ∀ a < 10, ∀ b < 10, Nat.digitChar a = Nat.digitChar b → a = b := by
  decide

theorem map_digitChar_inj :
    ∀ (l1 l2 : List Nat), (∀ x ∈ l1, x < 10) → (∀ x ∈ l2, x < 10) →
      l1.map Nat.digitChar = l2.map Nat.digitChar → l1 = l2 := by
  intro l1
  induction l1 with
  | nil => intro l2 _ _ h; cases l2 <;> simp_all
  | cons a t ih =>
      intro l2 h1 h2 h
      cases l2 with
      | nil => simp_all
      | cons b t2 =>
          simp only [List.map_cons, List.cons.injEq] at h
          have ha : a = b :=
            digitChar_inj_lt a (h1 a (by simp)) b (h2 b (by simp)) h.1
          have ht : t = t2 :=
            ih t2 (fun x hx => h1 x (by simp [hx])) (fun x hx => h2 x (by simp [hx])) h.2
          simp [ha, ht]

theorem toDigitsCore_eq_digits :
    ∀ (n fuel : Nat) (acc : List Char), n < fuel →
      Nat.toDigitsCore 10 fuel n acc =
        (if n = 0 then ['0'] else ((Nat.digits 10 n).map Nat.digitChar).reverse) ++ acc := by
  intro n
  induction n using Nat.strong_induction_on with
  | _ n ih =>
      intro fuel acc hf
      match fuel with
      | 0 => omega
      | f + 1 =>
          by_cases hz : n / 10 = 0
          · have hn : n < 10 := by omega
            by_cases h0 : n = 0
            · subst h0
              simp [Nat.toDigitsCore, Nat.digitChar]
            · have hd : Nat.digits 10 n = [n % 10] := by
                rw [Nat.digits_def' (by norm_num) (Nat.pos_of_ne_zero h0), hz]
                simp
              simp [Nat.toDigitsCore, hz, h0, hd, Nat.mod_eq_of_lt hn]
          · have hpos : 0 < n := by omega
            have hlt : n / 10 < n := Nat.div_lt_self hpos (by norm_num)
            have hrec : Nat.toDigitsCore 10 (f + 1) n acc =
                Nat.toDigitsCore 10 f (n / 10) (Nat.digitChar (n % 10) :: acc) := by
              simp [Nat.toDigitsCore, hz]
            rw [hrec, ih (n / 10) hlt f (Nat.digitChar (n % 10) :: acc) (by omega)]
            have hd : Nat.digits 10 n = n % 10 :: Nat.digits 10 (n / 10) :=
              Nat.digits_def' (by norm_num) hpos
            have hne : n ≠ 0 := by omega
            simp [hz, hd, hne, List.append_assoc]

theorem repr_eq_digits (n : Nat) :
    Nat.repr n =
      List.asString (if n = 0 then ['0'] else ((Nat.digits 10 n).map Nat.digitChar).reverse) := by
  show (Nat.toDigits 10 n).asString = _
  rw [Nat.toDigits, toDigitsCore_eq_digits n (n + 1) [] (Nat.lt_succ_self n)]
  simp

theorem nat_repr_injective : ∀ n m : Nat, Nat.repr n = Nat.repr m → n = m := by
  have key : ∀ m : Nat, m ≠ 0 → ((Nat.digits 10 m).map Nat.digitChar).reverse = ['0'] → False := by
    intro m hm h
    have h' : (Nat.digits 10 m).map Nat.digitChar = ['0'] := by
      have := congrArg List.reverse h
      simpa using this
    cases hd : Nat.digits 10 m with
    | nil => simp [hd] at h'
    | cons d t =>
        rw [hd] at h'
        simp only [List.map_cons, List.cons.injEq] at h'
        have ht : t = [] := by
          have := h'.2
          cases t <;> simp_all
        have hdlt : d < 10 :=
          Nat.digits_lt_base (by norm_num) (by rw [hd]; simp)
        have hd0 : d = 0 := by
          have : Nat.digitChar 0 = '0' := rfl
          exact digitChar_inj_lt d hdlt 0 (by norm_num) (by rw [h'.1, this])
        have : m = 0 := by
          have hod := Nat.ofDigits_digits 10 m
          rw [hd, ht, hd0] at hod
          simpa [Nat.ofDigits] using hod.symm
        exact hm this
  intro n m h
  rw [repr_eq_digits, repr_eq_digits] at h
  have hlist : (if n = 0 then ['0'] else ((Nat.digits 10 n).map Nat.digitChar).reverse) =
      (if m = 0 then ['0'] else ((Nat.digits 10 m).map Nat.digitChar).reverse) := by
    have hdata := congrArg String.data h
    simpa [List.asString] using hdata
  by_cases hn : n = 0 <;> by_cases hm : m = 0
  · omega
  · exact absurd (by simpa [hn, hm] using hlist.symm) (fun hh => key m hm hh)
  · exact absurd (by simpa [hn, hm] using hlist) (fun hh => key n hn hh)
  · rw [if_neg hn, if_neg hm] at hlist
    have hmap : (Nat.digits 10 n).map Nat.digitChar = (Nat.digits 10 m).map Nat.digitChar := by
      have := congrArg List.reverse hlist
      simpa using this
    have hdig : Nat.digits 10 n = Nat.digits 10 m :=
      map_digitChar_inj _ _ (fun x hx => Nat.digits_lt_base (by norm_num) hx)
        (fun x hx => Nat.digits_lt_base (by norm_num) hx) hmap
    exact Nat.digits_inj_iff.mp hdig

theorem isPrefixOf_append_self (p t : List Char) : p.isPrefixOf (p ++ t) = true :=
  List.isPrefixOf_iff_prefix.mpr (List.prefix_append p t)

theorem not_prefixOf_of_take_ne (p l₁ l₂ : List Char) (k : Nat)
    (hk1 : k ≤ p.length) (hk2 : k ≤ l₁.length) (hne : p.take k ≠ l₁.take k) :
    p.isPrefixOf (l₁ ++ l₂) = false := by
  cases hb : p.isPrefixOf (l₁ ++ l₂) with
  | false => rfl
  | true =>
      obtain ⟨u, hu⟩ := List.isPrefixOf_iff_prefix.mp hb
      have htk := congrArg (List.take k) hu
      rw [List.take_append_of_le_length hk1, List.take_append_of_le_length hk2] at htk
      exact absurd htk hne

theorem vidChk_append (vid rest : List Char) (h11 : vid.length = 11)
    (hall : vid.all idChar = true) : vidChk (vid ++ rest) = true := by
  have ht : (vid ++ rest).take 11 = vid := by
    rw [← h11]; exact List.take_left vid rest
  simp [vidChk, ht, hall]
  omega

theorem hostChk_shape (host vid rest : List Char) (hh : host = hostLong ∨ host = hostShort)
    (h11 : vid.length = 11) (hall : vid.all idChar = true) :
    hostChk (host ++ (vid ++ rest)) = true := by
  rcases hh with h | h <;> subst h
  · simp [hostChk, isPrefixOf_append_self, List.drop_left, vidChk_append vid rest h11 hall]
  · have hneg := not_prefixOf_of_take_ne hostLong hostShort (vid ++ rest) 6
      (by decide) (by decide) (by decide)
    simp [hostChk, hneg, isPrefixOf_append_self, List.drop_left,
      vidChk_append vid rest h11 hall]

theorem wwwChk_shape (www host vid rest : List Char) (hw : www = [] ∨ www = wwwDot)
    (hh : host = hostLong ∨ host = hostShort)
    (h11 : vid.length = 11) (hall : vid.all idChar = true) :
    wwwChk (www ++ (host ++ (vid ++ rest))) = true := by
  rcases hw with h | h <;> subst h
  · have hneg : wwwDot.isPrefixOf (host ++ (vid ++ rest)) = false := by
      rcases hh with h | h <;> subst h
      · exact not_prefixOf_of_take_ne wwwDot hostLong (vid ++ rest) 1
          (by decide) (by decide) (by decide)
      · exact not_prefixOf_of_take_ne wwwDot hostShort (vid ++ rest) 1
          (by decide) (by decide) (by decide)
    simp only [List.nil_append]
    simp [wwwChk, hneg, hostChk_shape host vid rest hh h11 hall]
  · simp [wwwChk, isPrefixOf_append_self, List.drop_left,
      hostChk_shape host vid rest hh h11 hall]

theorem schemeChk_shape (scheme www host vid rest : List Char)
    (hs : scheme = [] ∨ scheme = schemeHttp ∨ scheme = schemeHttps)
    (hw : www = [] ∨ www = wwwDot) (hh : host = hostLong ∨ host = hostShort)
    (h11 : vid.length = 11) (hall : vid.all idChar = true) :
    schemeChk (scheme ++ (www ++ (host ++ (vid ++ rest)))) = true := by
  have htail := wwwChk_shape www host vid rest hw hh h11 hall
  rcases hs with h | h | h <;> subst h
  · have hneg1 : schemeHttps.isPrefixOf (www ++ (host ++ (vid ++ rest))) = false := by
      rcases hw with h | h <;> subst h
      · simp only [List.nil_append]
        rcases hh with h | h <;> subst h
        · exact not_prefixOf_of_take_ne schemeHttps hostLong (vid ++ rest) 1
            (by decide) (by decide) (by decide)
        · exact not_prefixOf_of_take_ne schemeHttps hostShort (vid ++ rest) 1
            (by decide) (by decide) (by decide)
      · exact not_prefixOf_of_take_ne schemeHttps wwwDot (host ++ (vid ++ rest)) 1
          (by decide) (by decide) (by decide)
    have hneg2 : schemeHttp.isPrefixOf (www ++ (host ++ (vid ++ rest))) = false := by
      rcases hw with h | h <;> subst h
      · simp only [List.nil_append]
        rcases hh with h | h <;> subst h
        · exact not_prefixOf_of_take_ne schemeHttp hostLong (vid ++ rest) 1
            (by decide) (by decide) (by decide)
        · exact not_prefixOf_of_take_ne schemeHttp hostShort (vid ++ rest) 1
            (by decide) (by decide) (by decide)
      · exact not_prefixOf_of_take_ne schemeHttp wwwDot (host ++ (vid ++ rest)) 1
          (by decide) (by decide) (by decide)
    simp only [List.nil_append]
    simp [schemeChk, hneg1, hneg2, htail]
  · have hneg1 := not_prefixOf_of_take_ne schemeHttps schemeHttp
      (www ++ (host ++ (vid ++ rest))) 5 (by decide) (by decide) (by decide)
    simp [schemeChk, hneg1, isPrefixOf_append_self, List.drop_left, htail]
  · simp [schemeChk, isPrefixOf_append_self, List.drop_left, htail]

theorem vidChk_sound (l : List Char) (h : vidChk l = true) :
    ∃ vid rest : List Char, l = vid ++ rest ∧ vid.length = 11 ∧ vid.all idChar = true := by
  have h' := h
  unfold vidChk at h'
  rw [Bool.and_eq_true, decide_eq_true_eq] at h'
  refine ⟨l.take 11, l.drop 11, (List.take_append_drop 11 l).symm, ?_, h'.2⟩
  rw [List.length_take]
  omega

theorem hostChk_sound (l : List Char) (h : hostChk l = true) :
    ∃ host vid rest : List Char, l = host ++ (vid ++ rest) ∧
      (host = hostLong ∨ host = hostShort) ∧ vid.length = 11 ∧ vid.all idChar = true := by
  cases h1 : hostLong.isPrefixOf l with
  | true =>
      obtain ⟨t, ht⟩ := List.isPrefixOf_iff_prefix.mp h1
      simp only [hostChk, h1, if_true] at h
      rw [← ht, List.drop_left] at h
      obtain ⟨vid, rest, hteq, h11, hall⟩ := vidChk_sound t h
      exact ⟨hostLong, vid, rest, by rw [← ht, hteq], Or.inl rfl, h11, hall⟩
  | false =>
      cases h2 : hostShort.isPrefixOf l with
      | true =>
          obtain ⟨t, ht⟩ := List.isPrefixOf_iff_prefix.mp h2
          simp only [hostChk, h1, h2, if_true, Bool.false_eq_true, if_false] at h
          rw [← ht, List.drop_left] at h
          obtain ⟨vid, rest, hteq, h11, hall⟩ := vidChk_sound t h
          exact ⟨hostShort, vid, rest, by rw [← ht, hteq], Or.inr rfl, h11, hall⟩
      | false =>
          simp [hostChk, h1, h2] at h

theorem wwwChk_sound (l : List Char) (h : wwwChk l = true) :
    ∃ www t : List Char, l = www ++ t ∧ (www = [] ∨ www = wwwDot) ∧ hostChk t = true := by
  cases h1 : wwwDot.isPrefixOf l with
  | true =>
      obtain ⟨t, ht⟩ := List.isPrefixOf_iff_prefix.mp h1
      simp only [wwwChk, h1, if_true] at h
      rw [← ht, List.drop_left] at h
      exact ⟨wwwDot, t, ht.symm, Or.inr rfl, h⟩
  | false =>
      simp only [wwwChk, h1, Bool.false_eq_true, if_false] at h
      exact ⟨[], l, by simp, Or.inl rfl, h⟩

theorem schemeChk_sound (l : List Char) (h : schemeChk l = true) :
    ∃ scheme t : List Char, l = scheme ++ t ∧
      (scheme = [] ∨ scheme = schemeHttp ∨ scheme = schemeHttps) ∧ wwwChk t = true := by
  cases h1 : schemeHttps.isPrefixOf l with
  | true =>
      obtain ⟨t, ht⟩ := List.isPrefixOf_iff_prefix.mp h1
      simp only [schemeChk, h1, if_true] at h
      rw [← ht, List.drop_left] at h
      exact ⟨schemeHttps, t, ht.symm, Or.inr (Or.inr rfl), h⟩
  | false =>
      cases h2 : schemeHttp.isPrefixOf l with
      | true =>
          obtain ⟨t, ht⟩ := List.isPrefixOf_iff_prefix.mp h2
          simp only [schemeChk, h1, h2, if_true, Bool.false_eq_true, if_false] at h
          rw [← ht, List.drop_left] at h
          exact ⟨schemeHttp, t, ht.symm, Or.inr (Or.inl rfl), h⟩
      | false =>
          simp only [schemeChk, h1, h2, Bool.false_eq_true, if_false] at h
          exact ⟨[], l, by simp, Or.inl rfl, h⟩

/-- The regex test accepts exactly the strings of the shape described in
the spec. -/
theorem matchesYoutube_iff_shape (s : String) : matchesYoutube s = true ↔ YoutubeShape s := by
  constructor
  · intro h
    obtain ⟨scheme, t1, hl1, hs, hw1⟩ := schemeChk_sound s.data h
    obtain ⟨www, t2, hl2, hw, hh1⟩ := wwwChk_sound t1 hw1
    obtain ⟨host, vid, rest, hl3, hh, h11, hall⟩ := hostChk_sound t2 hh1
    exact ⟨scheme, www, host, vid, rest, by rw [hl1, hl2, hl3], hs, hw, hh, h11, hall⟩
  · rintro ⟨scheme, www, host, vid, rest, hdec, hs, hw, hh, h11, hall⟩
    show schemeChk s.data = true
    rw [hdec]
    exact schemeChk_shape scheme www host vid rest hs hw hh h11 hall

/-! Invariant machinery for the interleaved model: record ids are pairwise
distinct whenever all submissions happened at distinct clock milliseconds,
every pending completion points at a running record, and under these
conditions a terminal record is never touched again. -/

theorem successUpdate_map_id (id : String) (d : ResponseData) (l : List Execution) :
    (successUpdate id d l).map (·.id) = l.map (·.id) := by
  unfold successUpdate
  rw [List.map_map]
  exact List.map_congr_left (fun a _ => by by_cases h : a.id = id <;> simp [h])

theorem errorUpdate_map_id (id : String) (l : List Execution) :
    (errorUpdate id l).map (·.id) = l.map (·.id) := by
  unfold errorUpdate
  rw [List.map_map]
  exact List.map_congr_left (fun a _ => by by_cases h : a.id = id <;> simp [h])

theorem applyComplete_map_id (id : String) (net : NetOutcome) (p : PageState) :
    (applyComplete id net p).executions.map (·.id) = p.executions.map (·.id) := by
  cases net with
  | resolved d => exact successUpdate_map_id id d p.executions
  | rejectedWith e => exact errorUpdate_map_id id p.executions

theorem mem_applyComplete_of_ne {id : String} {net : NetOutcome} {p : PageState}
    {ex : Execution} (h : ex ∈ p.executions) (hne : ex.id ≠ id) :
    ex ∈ (applyComplete id net p).executions := by
  cases net with
  | resolved d =>
      show ex ∈ successUpdate id d p.executions
      unfold successUpdate
      rw [List.mem_map]
      exact ⟨ex, h, by simp [hne]⟩
  | rejectedWith e =>
      show ex ∈ errorUpdate id p.executions
      unfold errorUpdate
      rw [List.mem_map]
      exact ⟨ex, h, by simp [hne]⟩

theorem ids_of_mem_applyComplete {id : String} {net : NetOutcome} {p : PageState}
    {ex' : Execution} (h : ex' ∈ (applyComplete id net p).executions) :
    ∃ ex ∈ p.executions, ex'.id = ex.id := by
  cases net with
  | resolved d =>
      have h' : ex' ∈ successUpdate id d p.executions := h
      unfold successUpdate at h'
      rw [List.mem_map] at h'
      obtain ⟨ex, hm, heq⟩ := h'
      exact ⟨ex, hm, by rw [← heq]; by_cases hh : ex.id = id <;> simp [hh]⟩
  | rejectedWith e =>
      have h' : ex' ∈ errorUpdate id p.executions := h
      unfold errorUpdate at h'
      rw [List.mem_map] at h'
      obtain ⟨ex, hm, heq⟩ := h'
      exact ⟨ex, hm, by rw [← heq]; by_cases hh : ex.id = id <;> simp [hh]⟩

theorem pairwise_id_iff (l : List Execution) :
    l.Pairwise (fun a b => a.id ≠ b.id) ↔ (l.map (·.id)).Pairwise (· ≠ ·) :=
  (List.pairwise_map).symm

theorem stepE_preserve (env : Env) (s s' : SysState) (e : Event) (ts : List Nat)
    (hinv : SysInv s) (hids : IdsFrom s ts)
    (hfresh : ∀ nowMs nowIso, e = .submit nowMs nowIso → nowMs ∉ ts)
    (hstep : stepE env s e = some s') :
    SysInv s' ∧ IdsFrom s' (ts ++ submitTimes [e]) ∧
      (∀ ex ∈ s.page.executions, ex.status ≠ .running → ex ∈ s'.page.executions) := by
  obtain ⟨hpair, hnd, hrun⟩ := hinv
  cases e with
  | setInput v =>
      simp only [stepE, Option.some.injEq] at hstep
      subst hstep
      refine ⟨⟨hpair, hnd, hrun⟩, ?_, fun ex hm _ => hm⟩
      intro ex hm
      obtain ⟨n, hn, hid⟩ := hids ex hm
      exact ⟨n, by simp [submitTimes, hn], hid⟩
  | complete id net =>
      by_cases hmem : id ∈ s.inFlight
      · simp only [stepE, hmem, if_true, Option.some.injEq] at hstep
        subst hstep
        obtain ⟨exR, hexR, hexRid, hexRrun⟩ := hrun id hmem
        have hsym : Symmetric (fun a b : Execution => a.id ≠ b.id) :=
          fun _ _ h => Ne.symm h
        have hfr : ∀ ex ∈ s.page.executions, ex.status ≠ .running →
            ex ∈ (applyComplete id net s.page).executions := by
          intro ex hm hterm
          have hne : ex ≠ exR := fun hc => hterm (by rw [hc]; exact hexRrun)
          have hneid : ex.id ≠ exR.id := hpair.forall hsym hm hexR hne
          exact mem_applyComplete_of_ne hm (by rw [← hexRid]; exact hneid)
        refine ⟨⟨?_, hnd.erase id, ?_⟩, ?_, hfr⟩
        · rw [pairwise_id_iff, applyComplete_map_id, ← pairwise_id_iff]
          exact hpair
        · intro j hj
          have hj' := hnd.mem_erase_iff.mp hj
          obtain ⟨exj, hexj, hexjid, hexjrun⟩ := hrun j hj'.2
          refine ⟨exj, ?_, hexjid, hexjrun⟩
          exact mem_applyComplete_of_ne hexj (by rw [hexjid]; exact hj'.1)
        · intro ex' hm'
          obtain ⟨ex, hm, hideq⟩ := ids_of_mem_applyComplete hm'
          obtain ⟨n, hn, hid⟩ := hids ex hm
          exact ⟨n, by simp [submitTimes, hn], by rw [hideq]; exact hid⟩
      · simp [stepE, hmem] at hstep
  | submit nowMs nowIso =>
      have hfreshn : nowMs ∉ ts := hfresh nowMs nowIso rfl
      have hidsfresh : ∀ ex ∈ s.page.executions, ex.id ≠ Nat.repr nowMs := by
        intro ex hm hc
        obtain ⟨n, hn, hid⟩ := hids ex hm
        have : n = nowMs := nat_repr_injective n nowMs (by rw [← hid, hc])
        exact hfreshn (this ▸ hn)
      by_cases h1 : jsTrim s.page.videoUrl = ""
      · simp only [stepE, h1, if_true, Option.some.injEq] at hstep
        subst hstep
        refine ⟨⟨hpair, hnd, hrun⟩, ?_, fun ex hm _ => hm⟩
        intro ex hm
        obtain ⟨n, hn, hid⟩ := hids ex hm
        exact ⟨n, List.mem_append_left _ hn, hid⟩
      · by_cases h2 : matchesYoutube (jsTrim s.page.videoUrl) = true
        · simp only [stepE, h1, h2, not_true, reduceIte, Option.some.injEq] at hstep
          subst hstep
          constructor
          · refine ⟨?_, ?_, ?_⟩
            · show (newExecution nowMs nowIso :: s.page.executions).Pairwise _
              exact List.pairwise_cons.mpr
                ⟨fun b hb => by
                  show (newExecution nowMs nowIso).id ≠ b.id
                  exact fun hc => hidsfresh b hb (by rw [← hc]; rfl), hpair⟩
            · show (Nat.repr nowMs :: s.inFlight).Nodup
              refine List.nodup_cons.mpr ⟨?_, hnd⟩
              intro hc
              obtain ⟨ex, hex, hexid, _⟩ := hrun _ hc
              exact hidsfresh ex hex hexid
            · intro i hi
              rcases List.mem_cons.mp hi with hi | hi
              · exact ⟨newExecution nowMs nowIso, by simp [acceptSubmit], by rw [hi]; rfl,
                  rfl⟩
              · obtain ⟨ex, hex, hexid, hexrun⟩ := hrun i hi
                exact ⟨ex, by simp [acceptSubmit]; right; exact hex, hexid, hexrun⟩
          constructor
          · intro ex hm
            have hm' : ex ∈ newExecution nowMs nowIso :: s.page.executions := hm
            rcases List.mem_cons.mp hm' with hh | hh
            · exact ⟨nowMs, by simp [submitTimes], by rw [hh]; rfl⟩
            · obtain ⟨n, hn, hid⟩ := hids ex hh
              exact ⟨n, List.mem_append_left _ hn, hid⟩
          · intro ex hm _
            show ex ∈ newExecution nowMs nowIso :: s.page.executions
            exact List.mem_cons_of_mem _ hm
        · have h2' : matchesYoutube (jsTrim s.page.videoUrl) = false := by
            cases hmm : matchesYoutube (jsTrim s.page.videoUrl)
            · rfl
            · exact absurd hmm h2
          simp only [stepE, h1, h2', Bool.false_eq_true, not_false_iff, reduceIte,
            Option.some.injEq] at hstep
          subst hstep
          refine ⟨⟨hpair, hnd, hrun⟩, ?_, fun ex hm _ => hm⟩
          intro ex hm
          obtain ⟨n, hn, hid⟩ := hids ex hm
          exact ⟨n, List.mem_append_left _ hn, hid⟩

theorem runE_preserve (env : Env) :
    ∀ (tr : List Event) (s s' : SysState) (ts : List Nat),
      SysInv s → IdsFrom s ts → (ts ++ submitTimes tr).Nodup →
      runE env s tr = some s' →
      SysInv s' ∧ IdsFrom s' (ts ++ submitTimes tr) ∧
        (∀ ex ∈ s.page.executions, ex.status ≠ .running → ex ∈ s'.page.executions) := by
  intro tr
  induction tr with
  | nil =>
      intro s s' ts hinv hids _ hrun
      simp only [runE, Option.some.injEq] at hrun
      subst hrun
      have heq : ts ++ submitTimes [] = ts := by simp [submitTimes]
      rw [heq]
      exact ⟨hinv, hids, fun ex hm _ => hm⟩
  | cons e es ih =>
      intro s s' ts hinv hids hnd hrun
      cases hst : stepE env s e with
      | none => simp [runE, hst] at hrun
      | some s1 =>
          simp only [runE, hst] at hrun
          have hfr : ∀ nowMs nowIso, e = .submit nowMs nowIso → nowMs ∉ ts := by
            intro n i he hmem
            subst he
            simp only [submitTimes] at hnd
            exact (List.nodup_append.mp hnd).2.2 hmem (List.mem_cons_self n _)
          obtain ⟨hinv1, hids1, hfr1⟩ := stepE_preserve env s s1 e ts hinv hids hfr hst
          have heq : (ts ++ submitTimes [e]) ++ submitTimes es = ts ++ submitTimes (e :: es) := by
            cases e <;> simp [submitTimes]
          have hnd' : ((ts ++ submitTimes [e]) ++ submitTimes es).Nodup := by
            rw [heq]; exact hnd
          obtain ⟨hinv2, hids2, hfr2⟩ := ih s1 s' (ts ++ submitTimes [e]) hinv1 hids1 hnd' hrun
          refine ⟨hinv2, ?_, ?_⟩
          · rw [← heq]; exact hids2
          · intro ex hm hterm
            exact hfr2 ex (hfr1 ex hm hterm) hterm

theorem submitTimes_append (tr1 tr2 : List Event) :
    submitTimes (tr1 ++ tr2) = submitTimes tr1 ++ submitTimes tr2 := by
  induction tr1 with
  | nil => rfl
  | cons e es ih => cases e <;> simp [submitTimes, ih]

theorem initState_inv : SysInv initState := by
  refine ⟨?_, ?_, ?_⟩
  · exact List.Pairwise.nil
  · exact List.nodup_nil
  · intro i hi
    simp [initState] at hi

theorem initState_idsFrom : IdsFrom initState [] := by
  intro ex hm
  simp [initState] at hm

theorem matchesYoutube_empty : matchesYoutube "" = false := by decide

theorem triggerWorkflow_accept (env : Env) (p : PageState) (nowMs : Nat) (nowIso : String)
    (net : NetOutcome) (hm : matchesYoutube (jsTrim p.videoUrl) = true) :
    triggerWorkflow env p nowMs nowIso net =
      { state := applyComplete (Nat.repr nowMs) net (acceptSubmit env p nowMs nowIso).1,
        toasts := ["Starting video processing...",
          match net with
          | .resolved d => successToast d
          | .rejectedWith e => getErrorMessage e],
        requests := [(acceptSubmit env p nowMs nowIso).2] } := by
  have h1 : ¬ jsTrim p.videoUrl = "" := by
    intro hc
    rw [hc] at hm
    exact absurd hm (by decide)
  cases net <;> simp [triggerWorkflow, h1, hm]

theorem accept_complete_length (env : Env) (p : PageState) (nowMs : Nat) (nowIso : String)
    (net : NetOutcome) :
    (applyComplete (Nat.repr nowMs) net (acceptSubmit env p nowMs nowIso).1).executions.length =
      p.executions.length + 1 := by
  cases net <;> simp [applyComplete, acceptSubmit, successUpdate, errorUpdate]

theorem accept_complete_head_success (env : Env) (p : PageState) (nowMs : Nat) (nowIso : String)
    (d : ResponseData) :
    (applyComplete (Nat.repr nowMs) (.resolved d)
        (acceptSubmit env p nowMs nowIso).1).executions.head? =
      some { id := Nat.repr nowMs, status := .success, startedAt := nowIso, result := some d } := by
  simp [applyComplete, acceptSubmit, successUpdate, newExecution]

theorem accept_complete_head_error (env : Env) (p : PageState) (nowMs : Nat) (nowIso : String)
    (e : AxiosError) :
    (applyComplete (Nat.repr nowMs) (.rejectedWith e)
        (acceptSubmit env p nowMs nowIso).1).executions.head? =
      some { id := Nat.repr nowMs, status := .error, startedAt := nowIso, result := none } := by
  simp [applyComplete, acceptSubmit, errorUpdate, newExecution]

theorem getErrorMessage_classified (e : AxiosError) :
    getErrorMessage e = "Processing timed out. Large videos may take longer to process." ∨
    getErrorMessage e = "Workflow endpoint not found. Please check backend deployment." ∨
    getErrorMessage e = "Cannot connect to backend. Please check if the service is running." ∨
    (∃ m, e.respDataMessage = some m ∧ m ≠ "" ∧ getErrorMessage e = m) ∨
    getErrorMessage e = "Failed to process video" := by
  unfold getErrorMessage
  by_cases h1 : e.code = some "ECONNABORTED"
  · simp [h1]
  · by_cases h2 : e.respStatus = some 404
    · simp [h1, h2]
    · by_cases h3 : (decide (e.respStatus = some 0) || msgHasNetworkError e.message) = true
      · simp [h1, h2, h3]
      · cases h4 : e.respDataMessage with
        | none => simp [h1, h2, h3, h4]
        | some m =>
            by_cases h5 : m = ""
            · simp [h1, h2, h3, h4, h5]
            · simp [h1, h2, h3, h4, h5]

/-- C5: for every input whose trimmed form is empty — that is, the input is
empty or whitespace-only — `triggerWorkflow` rejects it: the user-visible
error toast is emitted, no execution record is created, no network request
is issued, and the component state is returned exactly unchanged. -/
theorem C5_empty_input_rejected (env : Env) (p : PageState) (nowMs : Nat) (nowIso : String)
    (net : NetOutcome) (h : jsTrim p.videoUrl = "") :
    triggerWorkflow env p nowMs nowIso net =
      { state := p, toasts := ["Please enter a valid YouTube URL"], requests := [] } := by
  simp [triggerWorkflow, h]

/-- Witness for C5 at a whitespace-only input. -/
theorem C5_witness :
    triggerWorkflow ⟨none, none⟩ ⟨"   ", false, []⟩ 1700000000000 "t0"
        (.resolved ⟨some 3, "ok"⟩) =
      { state := ⟨"   ", false, []⟩, toasts := ["Please enter a valid YouTube URL"],
        requests := [] } :=
  C5_empty_input_rejected ⟨none, none⟩ ⟨"   ", false, []⟩ 1700000000000 "t0"
    (.resolved ⟨some 3, "ok"⟩) (by decide)

/-- C4: validation is governed exactly by the URL shape on the trimmed
input.  If the trimmed input is not of the shape (optional scheme,
optional `www.`, one of the two hosts, an 11-character id, arbitrary
tail), the submission is rejected with a user-visible error, no record is
created, no request is issued and the state is unchanged; if it is of the
shape, the submission proceeds: one record is created and exactly one
request is issued. -/
theorem C4_url_validation (env : Env) (p : PageState) (nowMs : Nat) (nowIso : String)
    (net : NetOutcome) :
    (¬ YoutubeShape (jsTrim p.videoUrl) →
        triggerWorkflow env p nowMs nowIso net =
          { state := p, toasts := ["Please enter a valid YouTube URL"], requests := [] }) ∧
    (YoutubeShape (jsTrim p.videoUrl) →
        (triggerWorkflow env p nowMs nowIso net).requests =
            [{ url := webhookUrl env, body := { videoUrl := jsTrim p.videoUrl } }] ∧
          (triggerWorkflow env p nowMs nowIso net).state.executions.length =
            p.executions.length + 1) := by
  constructor
  · intro hns
    have hm : matchesYoutube (jsTrim p.videoUrl) = false := by
      cases hmm : matchesYoutube (jsTrim p.videoUrl)
      · rfl
      · exact absurd ((matchesYoutube_iff_shape _).mp hmm) hns
    by_cases h1 : jsTrim p.videoUrl = ""
    · simp [triggerWorkflow, h1]
    · simp [triggerWorkflow, h1, hm]
  · intro hs
    have hm : matchesYoutube (jsTrim p.videoUrl) = true := (matchesYoutube_iff_shape _).mpr hs
    rw [triggerWorkflow_accept env p nowMs nowIso net hm]
    exact ⟨rfl, accept_complete_length env p nowMs nowIso net⟩

/-- Witness for C4: `"not a url"` is rejected with no record and no
request, while a canonical watch URL proceeds and creates one record. -/
theorem C4_witness :
    triggerWorkflow ⟨none, none⟩ ⟨"not a url", false, []⟩ 100 "t0" (.resolved ⟨some 3, "ok"⟩) =
      { state := ⟨"not a url", false, []⟩, toasts := ["Please enter a valid YouTube URL"],
        requests := [] } ∧
    (triggerWorkflow ⟨none, none⟩ ⟨"https://www.youtube.com/watch?v=dQw4w9WgXcQ", false, []⟩
        100 "t0" (.resolved ⟨some 3, "ok"⟩)).state.executions.length = 0 + 1 :=
  ⟨(C4_url_validation ⟨none, none⟩ ⟨"not a url", false, []⟩ 100 "t0"
      (.resolved ⟨some 3, "ok"⟩)).1
      (fun hs => absurd ((matchesYoutube_iff_shape _).mpr hs) (by decide)),
   ((C4_url_validation ⟨none, none⟩ ⟨"https://www.youtube.com/watch?v=dQw4w9WgXcQ", false, []⟩
      100 "t0" (.resolved ⟨some 3, "ok"⟩)).2
      ((matchesYoutube_iff_shape _).mp (by decide))).2⟩

/-- C6: every accepted submission first creates a fresh record with status
`running` and prepends it to the record list, and the single outbound POST
it then issues goes to the configured endpoint with JSON body
`{ videoUrl: <trimmed input> }`. -/
theorem C6_accept_creates_then_posts (env : Env) (p : PageState) (nowMs : Nat)
    (nowIso : String) (net : NetOutcome)
    (hm : matchesYoutube (jsTrim p.videoUrl) = true) :
    (acceptSubmit env p nowMs nowIso).1.executions =
        newExecution nowMs nowIso :: p.executions ∧
    (newExecution nowMs nowIso).status = .running ∧
    (acceptSubmit env p nowMs nowIso).2 =
        { url := webhookUrl env, body := { videoUrl := jsTrim p.videoUrl } } ∧
    (triggerWorkflow env p nowMs nowIso net).requests = [(acceptSubmit env p nowMs nowIso).2] := by
  refine ⟨rfl, rfl, rfl, ?_⟩
  rw [triggerWorkflow_accept env p nowMs nowIso net hm]

/-- Witness for C6 at a concrete accepted submission. -/
theorem C6_witness :
    (acceptSubmit ⟨none, none⟩ ⟨"youtu.be/dQw4w9WgXcQ", false, []⟩ 100 "t0").1.executions =
        newExecution 100 "t0" :: [] ∧
    (newExecution 100 "t0").status = .running ∧
    (acceptSubmit ⟨none, none⟩ ⟨"youtu.be/dQw4w9WgXcQ", false, []⟩ 100 "t0").2 =
        { url := webhookUrl ⟨none, none⟩,
          body := { videoUrl := jsTrim "youtu.be/dQw4w9WgXcQ" } } ∧
    (triggerWorkflow ⟨none, none⟩ ⟨"youtu.be/dQw4w9WgXcQ", false, []⟩ 100 "t0"
        (.resolved ⟨some 3, "ok"⟩)).requests =
      [(acceptSubmit ⟨none, none⟩ ⟨"youtu.be/dQw4w9WgXcQ", false, []⟩ 100 "t0").2] :=
  C6_accept_creates_then_posts ⟨none, none⟩ ⟨"youtu.be/dQw4w9WgXcQ", false, []⟩ 100 "t0"
    (.resolved ⟨some 3, "ok"⟩) (by decide)

/-- C3: for every submission whose POST resolves, exactly one new record
was created (the list grows by one), that record ends with status
`success`, carries the response payload as its `result`, keeps the id it
was created with, the user is notified (loading toast then success toast),
and the input field is cleared. -/
theorem C3_success_path (env : Env) (p : PageState) (nowMs : Nat) (nowIso : String)
    (d : ResponseData) (hm : matchesYoutube (jsTrim p.videoUrl) = true) :
    (triggerWorkflow env p nowMs nowIso (.resolved d)).state.executions.length =
        p.executions.length + 1 ∧
    (triggerWorkflow env p nowMs nowIso (.resolved d)).state.executions.head? =
        some { id := Nat.repr nowMs, status := .success, startedAt := nowIso,
               result := some d } ∧
    (triggerWorkflow env p nowMs nowIso (.resolved d)).toasts =
        ["Starting video processing...", successToast d] ∧
    (triggerWorkflow env p nowMs nowIso (.resolved d)).state.videoUrl = "" := by
  rw [triggerWorkflow_accept env p nowMs nowIso (.resolved d) hm]
  exact ⟨accept_complete_length env p nowMs nowIso (.resolved d),
    accept_complete_head_success env p nowMs nowIso d, rfl, rfl⟩

/-- Witness for C3 at a concrete resolved submission. -/
theorem C3_witness :
    (triggerWorkflow ⟨none, none⟩ ⟨"youtu.be/dQw4w9WgXcQ", false, []⟩ 100 "t0"
        (.resolved ⟨some 3, "ok"⟩)).state.executions.length = 0 + 1 ∧
    (triggerWorkflow ⟨none, none⟩ ⟨"youtu.be/dQw4w9WgXcQ", false, []⟩ 100 "t0"
        (.resolved ⟨some 3, "ok"⟩)).state.executions.head? =
        some { id := Nat.repr 100, status := .success, startedAt := "t0",
               result := some ⟨some 3, "ok"⟩ } ∧
    (triggerWorkflow ⟨none, none⟩ ⟨"youtu.be/dQw4w9WgXcQ", false, []⟩ 100 "t0"
        (.resolved ⟨some 3, "ok"⟩)).toasts =
        ["Starting video processing...", successToast ⟨some 3, "ok"⟩] ∧
    (triggerWorkflow ⟨none, none⟩ ⟨"youtu.be/dQw4w9WgXcQ", false, []⟩ 100 "t0"
        (.resolved ⟨some 3, "ok"⟩)).state.videoUrl = "" :=
  C3_success_path ⟨none, none⟩ ⟨"youtu.be/dQw4w9WgXcQ", false, []⟩ 100 "t0"
    ⟨some 3, "ok"⟩ (by decide)

/-- C2: for every submission whose POST rejects, the record created by
that submission ends with status `error` (so it is no longer `running`),
the failure is classified into one of the five user-facing message
categories, a timed-out call (`code = 'ECONNABORTED'`) produces the
timeout-specific message which differs from the generic fallback, and the
submit operation is a total function on every error object — no exception
escapes the boundary. -/
theorem C2_failure_path (env : Env) (p : PageState) (nowMs : Nat) (nowIso : String)
    (e : AxiosError) (hm : matchesYoutube (jsTrim p.videoUrl) = true) :
    (triggerWorkflow env p nowMs nowIso (.rejectedWith e)).state.executions.length =
        p.executions.length + 1 ∧
    (triggerWorkflow env p nowMs nowIso (.rejectedWith e)).state.executions.head? =
        some { id := Nat.repr nowMs, status := .error, startedAt := nowIso, result := none } ∧
    (triggerWorkflow env p nowMs nowIso (.rejectedWith e)).toasts =
        ["Starting video processing...", getErrorMessage e] ∧
    (getErrorMessage e = "Processing timed out. Large videos may take longer to process." ∨
      getErrorMessage e = "Workflow endpoint not found. Please check backend deployment." ∨
      getErrorMessage e = "Cannot connect to backend. Please check if the service is running." ∨
      (∃ m, e.respDataMessage = some m ∧ m ≠ "" ∧ getErrorMessage e = m) ∨
      getErrorMessage e = "Failed to process video") ∧
    (e.code = some "ECONNABORTED" →
      getErrorMessage e = "Processing timed out. Large videos may take longer to process." ∧
        getErrorMessage e ≠ "Failed to process video") := by
  rw [triggerWorkflow_accept env p nowMs nowIso (.rejectedWith e) hm]
  refine ⟨accept_complete_length env p nowMs nowIso (.rejectedWith e),
    accept_complete_head_error env p nowMs nowIso e, rfl,
    getErrorMessage_classified e, ?_⟩
  intro hcode
  constructor
  · simp [getErrorMessage, hcode]
  · simp [getErrorMessage, hcode]

/-- Witness for C2 at a concrete timed-out submission. -/
theorem C2_witness :
    (triggerWorkflow ⟨none, none⟩ ⟨"youtu.be/dQw4w9WgXcQ", false, []⟩ 100 "t0"
        (.rejectedWith ⟨some "ECONNABORTED", none, none, none⟩)).state.executions.length =
        0 + 1 ∧
    (triggerWorkflow ⟨none, none⟩ ⟨"youtu.be/dQw4w9WgXcQ", false, []⟩ 100 "t0"
        (.rejectedWith ⟨some "ECONNABORTED", none, none, none⟩)).state.executions.head? =
        some { id := Nat.repr 100, status := .error, startedAt := "t0", result := none } ∧
    (triggerWorkflow ⟨none, none⟩ ⟨"youtu.be/dQw4w9WgXcQ", false, []⟩ 100 "t0"
        (.rejectedWith ⟨some "ECONNABORTED", none, none, none⟩)).toasts =
        ["Starting video processing...",
          getErrorMessage ⟨some "ECONNABORTED", none, none, none⟩] ∧
    (getErrorMessage ⟨some "ECONNABORTED", none, none, none⟩ =
        "Processing timed out. Large videos may take longer to process." ∨
      getErrorMessage ⟨some "ECONNABORTED", none, none, none⟩ =
        "Workflow endpoint not found. Please check backend deployment." ∨
      getErrorMessage ⟨some "ECONNABORTED", none, none, none⟩ =
        "Cannot connect to backend. Please check if the service is running." ∨
      (∃ m, (⟨some "ECONNABORTED", none, none, none⟩ : AxiosError).respDataMessage = some m ∧
        m ≠ "" ∧ getErrorMessage ⟨some "ECONNABORTED", none, none, none⟩ = m) ∨
      getErrorMessage ⟨some "ECONNABORTED", none, none, none⟩ = "Failed to process video") ∧
    ((⟨some "ECONNABORTED", none, none, none⟩ : AxiosError).code = some "ECONNABORTED" →
      getErrorMessage ⟨some "ECONNABORTED", none, none, none⟩ =
          "Processing timed out. Large videos may take longer to process." ∧
        getErrorMessage ⟨some "ECONNABORTED", none, none, none⟩ ≠ "Failed to process video") :=
  C2_failure_path ⟨none, none⟩ ⟨"youtu.be/dQw4w9WgXcQ", false, []⟩ 100 "t0"
    ⟨some "ECONNABORTED", none, none, none⟩ (by decide)

/-- C9: on the failure path the input field is not cleared — the final
`videoUrl` is exactly what the user entered — and the errored record keeps
its original id and `startedAt` and gains no `result` field. -/
theorem C9_failure_frame (env : Env) (p : PageState) (nowMs : Nat) (nowIso : String)
    (e : AxiosError) (hm : matchesYoutube (jsTrim p.videoUrl) = true) :
    (triggerWorkflow env p nowMs nowIso (.rejectedWith e)).state.videoUrl = p.videoUrl ∧
    (triggerWorkflow env p nowMs nowIso (.rejectedWith e)).state.executions.head? =
        some { id := Nat.repr nowMs, status := .error, startedAt := nowIso, result := none } := by
  rw [triggerWorkflow_accept env p nowMs nowIso (.rejectedWith e) hm]
  exact ⟨rfl, accept_complete_head_error env p nowMs nowIso e⟩

/-- Witness for C9 at a concrete failed submission. -/
theorem C9_witness :
    (triggerWorkflow ⟨none, none⟩ ⟨"youtu.be/dQw4w9WgXcQ", false, []⟩ 100 "t0"
        (.rejectedWith ⟨none, none, some 404, none⟩)).state.videoUrl =
        "youtu.be/dQw4w9WgXcQ" ∧
    (triggerWorkflow ⟨none, none⟩ ⟨"youtu.be/dQw4w9WgXcQ", false, []⟩ 100 "t0"
        (.rejectedWith ⟨none, none, some 404, none⟩)).state.executions.head? =
        some { id := Nat.repr 100, status := .error, startedAt := "t0", result := none } :=
  C9_failure_frame ⟨none, none⟩ ⟨"youtu.be/dQw4w9WgXcQ", false, []⟩ 100 "t0"
    ⟨none, none, some 404, none⟩ (by decide)

/-- C7: a completion updates in place exactly the records whose id matches
the completing submission: the list keeps its length, every position keeps
its id (so the order, newest first, is preserved), every record whose id
differs is returned bit-for-bit unchanged, and a matching record gets the
completion's terminal status while keeping its id and `startedAt` —
regardless of which in-flight submission completes first. -/
theorem C7_completion_frame (id : String) (net : NetOutcome) (p : PageState) :
    (applyComplete id net p).executions.length = p.executions.length ∧
    (∀ i : Nat, ∀ ex : Execution, p.executions[i]? = some ex → ex.id ≠ id →
        (applyComplete id net p).executions[i]? = some ex) ∧
    (∀ i : Nat, (applyComplete id net p).executions[i]?.map (·.id) =
        p.executions[i]?.map (·.id)) ∧
    (∀ i : Nat, ∀ ex : Execution, p.executions[i]? = some ex → ex.id = id →
        ∃ ex', (applyComplete id net p).executions[i]? = some ex' ∧ ex'.id = ex.id ∧
          ex'.startedAt = ex.startedAt ∧
          ex'.status = (match net with
            | .resolved _ => ExecStatus.success
            | .rejectedWith _ => ExecStatus.error)) := by
  cases net with
  | resolved d =>
      refine ⟨by simp [applyComplete, successUpdate], ?_, ?_, ?_⟩
      · intro i ex hi hne
        simp [applyComplete, successUpdate, List.getElem?_map, hi, hne]
      · intro i
        cases hi : p.executions[i]? with
        | none => simp [applyComplete, successUpdate, List.getElem?_map, hi]
        | some ex =>
            by_cases hne : ex.id = id <;>
              simp [applyComplete, successUpdate, List.getElem?_map, hi, hne]
      · intro i ex hi heq
        refine ⟨{ ex with status := .success, result := some d }, ?_, rfl, rfl, rfl⟩
        simp [applyComplete, successUpdate, List.getElem?_map, hi, heq]
  | rejectedWith e =>
      refine ⟨by simp [applyComplete, errorUpdate], ?_, ?_, ?_⟩
      · intro i ex hi hne
        simp [applyComplete, errorUpdate, List.getElem?_map, hi, hne]
      · intro i
        cases hi : p.executions[i]? with
        | none => simp [applyComplete, errorUpdate, List.getElem?_map, hi]
        | some ex =>
            by_cases hne : ex.id = id <;>
              simp [applyComplete, errorUpdate, List.getElem?_map, hi, hne]
      · intro i ex hi heq
        refine ⟨{ ex with status := .error }, ?_, rfl, rfl, rfl⟩
        simp [applyComplete, errorUpdate, List.getElem?_map, hi, heq]

/-- Witness for C7: completing the newer of two interleaved submissions
leaves the older record untouched at its position. -/
theorem C7_witness :
    (applyComplete "200" (.rejectedWith ⟨none, none, none, none⟩)
        ⟨"u", true, [⟨"200", .running, "t1", none⟩, ⟨"100", .success, "t0", none⟩]⟩
      ).executions[1]? = some ⟨"100", .success, "t0", none⟩ :=
  (C7_completion_frame "200" (.rejectedWith ⟨none, none, none, none⟩)
      ⟨"u", true, [⟨"200", .running, "t1", none⟩, ⟨"100", .success, "t0", none⟩]⟩).2.1
    1 ⟨"100", .success, "t0", none⟩ (by decide) (by decide)

/-- C8: record ids are the decimal rendering of the millisecond clock at
submission time; two submissions in the same millisecond therefore get
identical ids, and ids are distinct exactly when the clock readings are. -/
theorem C8_ids_are_timestamps :
    (∀ nowMs : Nat, ∀ nowIso : String, (newExecution nowMs nowIso).id = Nat.repr nowMs) ∧
    (∀ nowMs : Nat, ∀ iso1 iso2 : String,
        (newExecution nowMs iso1).id = (newExecution nowMs iso2).id) ∧
    (∀ n m : Nat, Nat.repr n = Nat.repr m ↔ n = m) :=
  ⟨fun _ _ => rfl, fun _ _ _ => rfl,
   fun n m => ⟨nat_repr_injective n m, fun h => by rw [h]⟩⟩

/-- Witness for C8 at concrete clock readings. -/
theorem C8_witness :
    (newExecution 1700000000000 "t0").id = Nat.repr 1700000000000 ∧
    (newExecution 1700000000000 "t0").id = (newExecution 1700000000000 "t1").id ∧
    (Nat.repr 1700000000000 = Nat.repr 1700000000001 ↔ 1700000000000 = 1700000000001) :=
  ⟨C8_ids_are_timestamps.1 1700000000000 "t0",
   C8_ids_are_timestamps.2.1 1700000000000 "t0" "t1",
   C8_ids_are_timestamps.2.2 1700000000000 1700000000001⟩

/-- C10: the success notification mentions the decimal clip count exactly
when `clips_generated` is truthy; an absent, `null` or zero count falls
back to the word `multiple` — in particular a backend result of `0` clips
is announced as `multiple` clips. -/
theorem C10_clips_text (d : ResponseData) :
    ((d.clips_generated = none ∨ d.clips_generated = some 0) →
        successToast d = "Video processing completed! Generated multiple clips.") ∧
    (∀ n : Nat, d.clips_generated = some n → n ≠ 0 →
        successToast d = "Video processing completed! Generated " ++ Nat.repr n ++ " clips.") := by
  constructor
  · rintro (h | h) <;> simp [successToast, h]
  · intro n h hn
    simp [successToast, h, hn]

/-- Witness for C10: zero clips are reported as `multiple`, three clips as
`3`. -/
theorem C10_witness :
    successToast ⟨some 0, "ok"⟩ = "Video processing completed! Generated multiple clips." ∧
    successToast ⟨some 3, "ok"⟩ =
      "Video processing completed! Generated " ++ Nat.repr 3 ++ " clips." :=
  ⟨(C10_clips_text ⟨some 0, "ok"⟩).1 (Or.inr rfl),
   (C10_clips_text ⟨some 3, "ok"⟩).2 3 rfl (by decide)⟩

/-- C1 counterexample: two submissions in the same clock millisecond share
the id `"100"`, and the completion of the second submission rewrites the
first submission's record even though it is already terminal.  After the
first three events the sole record is terminal with status `success`;
after the remaining three events the record with the same id and
`startedAt` has status `error`, and the original terminal record value is
gone from the list. -/
theorem C1_counterexample :
    runE ⟨none, none⟩ initState
        [.setInput "youtu.be/dQw4w9WgXcQ", .submit 100 "t0",
         .complete "100" (.resolved ⟨some 3, "ok"⟩)] =
      some ⟨⟨"", false, [⟨"100", .success, "t0", some ⟨some 3, "ok"⟩⟩]⟩, []⟩ ∧
    runE ⟨none, none⟩ ⟨⟨"", false, [⟨"100", .success, "t0", some ⟨some 3, "ok"⟩⟩]⟩, []⟩
        [.setInput "youtu.be/dQw4w9WgXcQ", .submit 100 "t1",
         .complete "100" (.rejectedWith ⟨some "ECONNABORTED", none, none, none⟩)] =
      some ⟨⟨"youtu.be/dQw4w9WgXcQ", false,
              [⟨"100", .error, "t1", none⟩,
               ⟨"100", .error, "t0", some ⟨some 3, "ok"⟩⟩]⟩, []⟩ ∧
    (⟨"100", .success, "t0", some ⟨some 3, "ok"⟩⟩ : Execution) ∉
      ([⟨"100", .error, "t1", none⟩,
        ⟨"100", .error, "t0", some ⟨some 3, "ok"⟩⟩] : List Execution) := by
  refine ⟨?_, ?_, ?_⟩ <;> decide

/-- C1 (amended): every record is created with status `running`, and —
provided all submissions of a run happen at pairwise-distinct clock
milliseconds, so that record ids are unique — a record that has reached
`success` or `error` is terminal: no later submission or completion
changes any of its fields.  Without the distinct-millisecond proviso the
original unconditional claim is refuted by `C1_counterexample`. -/
theorem C1_terminal_stable :
    (∀ nowMs : Nat, ∀ nowIso : String, (newExecution nowMs nowIso).status = .running) ∧
    (∀ (env : Env) (tr1 tr2 : List Event) (s1 s2 : SysState) (r : Execution),
      (submitTimes (tr1 ++ tr2)).Nodup →
      runE env initState tr1 = some s1 →
      r ∈ s1.page.executions → r.status ≠ .running →
      runE env s1 tr2 = some s2 →
      r ∈ s2.page.executions) := by
  refine ⟨fun _ _ => rfl, ?_⟩
  intro env tr1 tr2 s1 s2 r hnd h1 hr ht h2
  rw [submitTimes_append] at hnd
  have hnd1 : (([] : List Nat) ++ submitTimes tr1).Nodup := by
    simpa using (List.nodup_append.mp hnd).1
  obtain ⟨hinv1, hids1, _⟩ :=
    runE_preserve env tr1 initState s1 [] initState_inv initState_idsFrom hnd1 h1
  have hids1' : IdsFrom s1 (submitTimes tr1) := by simpa using hids1
  obtain ⟨_, _, hframe⟩ :=
    runE_preserve env tr2 s1 s2 (submitTimes tr1) hinv1 hids1' hnd h2
  exact hframe r hr ht

/-- Witness for the amended C1: with distinct submission milliseconds the
first submission's terminal record survives a later submission and its
completion unchanged. -/
theorem C1_witness :
    (⟨"100", .success, "t0", some ⟨some 3, "ok"⟩⟩ : Execution) ∈
      (⟨⟨"youtu.be/dQw4w9WgXcQ", false,
          [⟨"200", .error, "t1", none⟩,
           ⟨"100", .success, "t0", some ⟨some 3, "ok"⟩⟩]⟩, []⟩ : SysState).page.executions :=
  C1_terminal_stable.2 ⟨none, none⟩
    [.setInput "youtu.be/dQw4w9WgXcQ", .submit 100 "t0",
     .complete "100" (.resolved ⟨some 3, "ok"⟩)]
    [.setInput "youtu.be/dQw4w9WgXcQ", .submit 200 "t1",
     .complete "200" (.rejectedWith ⟨some "ECONNABORTED", none, none, none⟩)]
    ⟨⟨"", false, [⟨"100", .success, "t0", some ⟨some 3, "ok"⟩⟩]⟩, []⟩
    ⟨⟨"youtu.be/dQw4w9WgXcQ", false,
        [⟨"200", .error, "t1", none⟩,
         ⟨"100", .success, "t0", some ⟨some 3, "ok"⟩⟩]⟩, []⟩
    ⟨"100", .success, "t0", some ⟨some 3, "ok"⟩⟩
    (by decide) (by decide) (by decide) (by decide) (by decide)

